import Mathlib

/-!
Verification of the audio-cleaning pricing calculator (src/main.js).

The development shallowly embeds the formula registry (`FORMULAS`), the
pricing engine (`calculateRatePerMinute`, `calculatePrice`), the chart
sampling loop of `initChart` / `updateChartData`, the currency formatter
(`formatCurrency`), the exchange-rate fetch cycle (`fetchExchangeRate`)
and the formula-switch event handler.

JavaScript numbers are modelled as real numbers in the pricing engine,
whose formulas use `Math.log` and `Math.pow`, and as rationals in the
exchange-rate manager and currency formatter, whose claims need concrete
evaluation.  Module-level mutable state (the exchange rates, the last
update timestamp, the refresh timer) is modelled by explicit state
passing: one fetch cycle is a function from the pre-state and the list of
endpoint outcomes to the post-state.
-/

namespace AudioPricing

/-- Bounds of one formula parameter: one row of the `params` tables inside
`FORMULAS` in src/main.js. -/
structure ParamSpec where
  min : ℝ
  max : ℝ
  default : ℝ
  step : ℝ

/-- The `params` table of a formula: bounds for the two shape parameters. -/
structure FormulaParams where
  A : ParamSpec
  B : ParamSpec

/-- One entry of the formula registry: the rate function and its parameter
bounds.  The display name and equation label are presentation-only and are
not modelled. -/
structure FormulaSpec where
  calculate : ℝ → ℝ → ℝ → ℝ
  params : FormulaParams

/-- The fixed set of registry keys of `FORMULAS` in src/main.js. -/
inductive FormulaId where
  | hyperbolic
  | power
  | logarithmic

/-- The formula registry `FORMULAS` of src/main.js: rate functions
`A / (1 + B * x)`, `x > 0 ? A * x^(-B) : A` and
`x > 0 ? max(0.005, A - B * ln x) : A`, with their parameter bounds. -/
noncomputable def FORMULAS : FormulaId → FormulaSpec
  | .hyperbolic =>
      { calculate := fun x A B => A / (1 + B * x)
        params :=
          { A := { min := 0.005, max := 0.2, default := 0.03, step := 0.001 }
            B := { min := 0.0001, max := 0.002, default := 0.0005, step := 0.00001 } } }
  | .power =>
      { calculate := fun x A B => if 0 < x then A * x ^ (-B) else A
        params :=
          { A := { min := 0.5, max := 5, default := 2, step := 0.1 }
            B := { min := 0.3, max := 1.2, default := 0.6, step := 0.01 } } }
  | .logarithmic =>
      { calculate := fun x A B => if 0 < x then max 0.005 (A - B * Real.log x) else A
        params :=
          { A := { min := 0.02, max := 0.15, default := 0.08, step := 0.005 }
            B := { min := 0.002, max := 0.02, default := 0.008, step := 0.001 } } }

/-- The pricing configuration read by the engine: the module-level
variables `baseFee`, `currentFormula`, `paramA`, `paramB` of src/main.js,
gathered into one record. -/
structure PricingConfig where
  baseFee : ℝ
  currentFormula : FormulaId
  paramA : ℝ
  paramB : ℝ

/-- Function `calculateRatePerMinute` of src/main.js: `0` at `minutes == 0`, else
the current formula's rate function applied to the current parameters. -/
noncomputable def calculateRatePerMinute (cfg : PricingConfig) (minutes : ℝ) : ℝ :=
  if minutes = 0 then 0
  else (FORMULAS cfg.currentFormula).calculate minutes cfg.paramA cfg.paramB

/-- The pricing breakdown returned by `calculatePrice`. -/
structure Quote where
  total : ℝ
  processingCost : ℝ
  rate : ℝ
  avgPerMinute : ℝ

/-- Function `calculatePrice` of src/main.js: rate from `calculateRatePerMinute`,
`processingCost = minutes * rate`, `total = baseFee + processingCost`,
`avgPerMinute = minutes > 0 ? total / minutes : 0`. -/
noncomputable def calculatePrice (cfg : PricingConfig) (minutes : ℝ) : Quote :=
  let rate := calculateRatePerMinute cfg minutes
  let processingCost := minutes * rate
  let total := cfg.baseFee + processingCost
  { total := total
    processingCost := processingCost
    rate := rate
    avgPerMinute := if 0 < minutes then total / minutes else 0 }

/-- Claim C1: for every duration `minutes ≥ 0` and every configuration,
the quote returned by `calculatePrice` satisfies
`total = baseFee + processingCost` and `processingCost = minutes * rate`,
with `avgPerMinute = total / minutes` when `minutes > 0` and
`avgPerMinute = 0` when `minutes = 0`; at `minutes = 0` the rate and the
processing cost are `0` for every formula. -/
theorem calculatePrice_quote_invariants (cfg : PricingConfig) (minutes : ℝ)
    (hm : 0 ≤ minutes) :
    (calculatePrice cfg minutes).total
        = cfg.baseFee + (calculatePrice cfg minutes).processingCost ∧
    (calculatePrice cfg minutes).processingCost
        = minutes * (calculatePrice cfg minutes).rate ∧
    (0 < minutes →
      (calculatePrice cfg minutes).avgPerMinute
          = (calculatePrice cfg minutes).total / minutes) ∧
    (minutes = 0 →
      (calculatePrice cfg minutes).avgPerMinute = 0 ∧
      (calculatePrice cfg minutes).rate = 0 ∧
      (calculatePrice cfg minutes).processingCost = 0) := by
  refine ⟨rfl, rfl, ?_, ?_⟩
  · intro hpos
    simp [calculatePrice, if_pos hpos]
  · intro h0
    subst h0
    simp [calculatePrice, calculateRatePerMinute]

/-- Witness for C1 at `minutes = 3` and a concrete configuration. -/
theorem calculatePrice_quote_invariants_witness :
    let cfg : PricingConfig :=
      { baseFee := 10, currentFormula := .hyperbolic, paramA := 0.03, paramB := 0.0005 }
    (calculatePrice cfg 3).total
        = cfg.baseFee + (calculatePrice cfg 3).processingCost ∧
    (calculatePrice cfg 3).processingCost = 3 * (calculatePrice cfg 3).rate ∧
    ((0 : ℝ) < 3 →
      (calculatePrice cfg 3).avgPerMinute = (calculatePrice cfg 3).total / 3) ∧
    ((3 : ℝ) = 0 →
      (calculatePrice cfg 3).avgPerMinute = 0 ∧
      (calculatePrice cfg 3).rate = 0 ∧
      (calculatePrice cfg 3).processingCost = 0) :=
  calculatePrice_quote_invariants _ 3 (by norm_num)

/-- Parameter `A` lies within the declared bounds of formula `f`. -/
def inBoundsA (f : FormulaId) (a : ℝ) : Prop :=
  (FORMULAS f).params.A.min ≤ a ∧ a ≤ (FORMULAS f).params.A.max

/-- Parameter `B` lies within the declared bounds of formula `f`. -/
def inBoundsB (f : FormulaId) (b : ℝ) : Prop :=
  (FORMULAS f).params.B.min ≤ b ∧ b ≤ (FORMULAS f).params.B.max

/-- For a positive duration and in-bounds parameters, every registry
formula's rate function is non-negative. -/
theorem calculate_nonneg (f : FormulaId) (A B x : ℝ) (hx : 0 < x)
    (hA : inBoundsA f A) (hB : inBoundsB f B) :
    0 ≤ (FORMULAS f).calculate x A B := by
  cases f with
  | hyperbolic =>
      simp only [FORMULAS, inBoundsA, inBoundsB] at hA hB ⊢
      have hBx : 0 ≤ B * x := mul_nonneg (by linarith [hB.1]) hx.le
      exact div_nonneg (by linarith [hA.1]) (by linarith)
  | power =>
      simp only [FORMULAS, inBoundsA, inBoundsB] at hA hB ⊢
      rw [if_pos hx]
      exact mul_nonneg (by linarith [hA.1]) (Real.rpow_nonneg hx.le _)
  | logarithmic =>
      simp only [FORMULAS, inBoundsA, inBoundsB] at hA hB ⊢
      rw [if_pos hx]
      have h5 : (0.005 : ℝ) ≤ max 0.005 (A - B * Real.log x) := le_max_left _ _
      linarith

/-- Claim C2: for every duration `minutes ≥ 0`, non-negative base fee,
every formula of the registry, and in-bounds parameters, the quote
satisfies `total ≥ baseFee`, `processingCost ≥ 0`, and
`total = baseFee + minutes * ratePerMinute` exactly. -/
theorem calculatePrice_total_ge_baseFee (f : FormulaId) (baseFee A B minutes : ℝ)
    (hb : 0 ≤ baseFee) (hm : 0 ≤ minutes)
    (hA : inBoundsA f A) (hB : inBoundsB f B) :
    baseFee ≤ (calculatePrice ⟨baseFee, f, A, B⟩ minutes).total ∧
    0 ≤ (calculatePrice ⟨baseFee, f, A, B⟩ minutes).processingCost ∧
    (calculatePrice ⟨baseFee, f, A, B⟩ minutes).total
        = baseFee + minutes * (calculatePrice ⟨baseFee, f, A, B⟩ minutes).rate := by
  have hrate : 0 ≤ calculateRatePerMinute ⟨baseFee, f, A, B⟩ minutes := by
    rcases eq_or_lt_of_le hm with h0 | hpos
    · simp [calculateRatePerMinute, ← h0]
    · rw [calculateRatePerMinute, if_neg (ne_of_gt hpos)]
      exact calculate_nonneg f A B minutes hpos hA hB
  have hpc : 0 ≤ minutes * calculateRatePerMinute ⟨baseFee, f, A, B⟩ minutes :=
    mul_nonneg hm hrate
  refine ⟨?_, hpc, rfl⟩
  show baseFee ≤ baseFee + minutes * calculateRatePerMinute ⟨baseFee, f, A, B⟩ minutes
  linarith

/-- Witness for C2: the hyperbolic formula at its defaults, base fee 10,
duration 2. -/
theorem calculatePrice_total_ge_baseFee_witness :
    (10 : ℝ) ≤ (calculatePrice ⟨10, .hyperbolic, 0.03, 0.0005⟩ 2).total ∧
    0 ≤ (calculatePrice ⟨10, .hyperbolic, 0.03, 0.0005⟩ 2).processingCost ∧
    (calculatePrice ⟨10, .hyperbolic, 0.03, 0.0005⟩ 2).total
        = 10 + 2 * (calculatePrice ⟨10, .hyperbolic, 0.03, 0.0005⟩ 2).rate :=
  calculatePrice_total_ge_baseFee .hyperbolic 10 0.03 0.0005 2
    (by norm_num) (by norm_num)
    (by constructor <;> norm_num [inBoundsA, FORMULAS])
    (by constructor <;> norm_num [inBoundsB, FORMULAS])

/-- Claim C5: for every duration `x > 0` and in-bounds parameters, the
logarithmic formula's rate function is at least `0.005`. -/
theorem logarithmic_rate_floor (A B x : ℝ) (hx : 0 < x)
    (hA : inBoundsA .logarithmic A) (hB : inBoundsB .logarithmic B) :
    (0.005 : ℝ) ≤ (FORMULAS .logarithmic).calculate x A B := by
  have h : (FORMULAS .logarithmic).calculate x A B
      = max 0.005 (A - B * Real.log x) := by
    simp [FORMULAS, if_pos hx]
  rw [h]
  exact le_max_left _ _

/-- Witness for C5 at duration 2 with the logarithmic defaults. -/
theorem logarithmic_rate_floor_witness :
    (0.005 : ℝ) ≤ (FORMULAS .logarithmic).calculate 2 0.08 0.008 :=
  logarithmic_rate_floor 0.08 0.008 2 (by norm_num)
    (by constructor <;> norm_num [inBoundsA, FORMULAS])
    (by constructor <;> norm_num [inBoundsB, FORMULAS])

/-- The `formulaType` change handler of src/main.js: sets `currentFormula`
to the chosen id and resets `paramA` / `paramB` to that formula's declared
defaults. -/
noncomputable def switchFormula (cfg : PricingConfig) (f : FormulaId) : PricingConfig :=
  { cfg with
      currentFormula := f
      paramA := (FORMULAS f).params.A.default
      paramB := (FORMULAS f).params.B.default }

/-- Claim C9: switching the selected formula to `f` sets `paramA` and
`paramB` to `f`'s declared defaults, regardless of the previous
configuration, and those defaults lie within `f`'s declared bounds. -/
theorem switchFormula_resets_defaults (cfg : PricingConfig) (f : FormulaId) :
    (switchFormula cfg f).currentFormula = f ∧
    (switchFormula cfg f).paramA = (FORMULAS f).params.A.default ∧
    (switchFormula cfg f).paramB = (FORMULAS f).params.B.default ∧
    inBoundsA f (switchFormula cfg f).paramA ∧
    inBoundsB f (switchFormula cfg f).paramB := by
  refine ⟨rfl, rfl, rfl, ?_, ?_⟩ <;>
    cases f <;>
    constructor <;>
    norm_num [switchFormula, inBoundsA, inBoundsB, FORMULAS]

/-- Constant `FALLBACK_RATE` of src/main.js: the fallback USD to UAH rate. -/
def FALLBACK_RATE : ℚ := 37

/-- Constant `FALLBACK_EUR_RATE` of src/main.js: the fallback USD to EUR rate. -/
def FALLBACK_EUR_RATE : ℚ := 0.85

/-- Constant `REFRESH_INTERVAL` of src/main.js: 30 minutes in milliseconds. -/
def REFRESH_INTERVAL : ℕ := 1800000

/-- The outcome of querying one endpoint in a fetch cycle: `failure` is a
network error or a non-ok response (the `throw` / `catch` path), and
`response u e` is a parsed JSON body whose case-insensitive `UAH` and
`EUR` rate lookups produced `u` and `e` (`none` when the field is absent
or falsy). -/
inductive EndpointResult where
  | failure
  | response (uah eur : Option ℚ)

/-- The truthiness-and-positivity test `r && r > 0` applied to an optional
rate, as in `if (uahRate && uahRate > 0)` of src/main.js. -/
def usableRate : Option ℚ → Bool
  | none => false
  | some r => decide (0 < r)

/-- Whether one endpoint outcome makes the cycle return successfully:
the guard `(uahRate && uahRate > 0) || (eurRate && eurRate > 0)`. -/
def succeeds : EndpointResult → Bool
  | .failure => false
  | .response u e => usableRate u || usableRate e

/-- The guarded assignment `if (rate && rate > 0) CURRENT = rate` of
src/main.js: the stored rate after the update. -/
def updateRate (cur : ℚ) : Option ℚ → ℚ
  | some r => if 0 < r then r else cur
  | none => cur

/-- The mutable state touched by `fetchExchangeRate` in src/main.js:
`CURRENCY_RATE`, `EUR_RATE`, `lastUpdateTime`, the fallback indicator
shown by the timestamp display, the stored `refreshTimer` handle, and an
explicit model of the set of live interval timers (`liveTimers` pairs a
timer id with its interval; `nextTimerId` is the id `setInterval` returns
next). -/
structure ExState where
  uah : ℚ
  eur : ℚ
  lastUpdate : Option ℕ
  isFallback : Bool
  refreshTimer : Option ℕ
  liveTimers : List (ℕ × ℕ)
  nextTimerId : ℕ

/-- The timer re-arm of the success path of `fetchExchangeRate`:
`if (refreshTimer) clearInterval(refreshTimer)` then
`refreshTimer = setInterval(fetchExchangeRate, REFRESH_INTERVAL)`. -/
def armTimer (st : ExState) : ExState :=
  let cleared :=
    match st.refreshTimer with
    | some h => st.liveTimers.filter (fun t => t.1 != h)
    | none => st.liveTimers
  { st with
      refreshTimer := some st.nextTimerId
      liveTimers := cleared ++ [(st.nextTimerId, REFRESH_INTERVAL)]
      nextTimerId := st.nextTimerId + 1 }

/-- The all-endpoints-failed tail of `fetchExchangeRate`: reset both rates
to the fallback constants and show the fallback indicator.  `lastUpdate`
and the timer fields are not touched. -/
def applyFallback (st : ExState) : ExState :=
  { st with uah := FALLBACK_RATE, eur := FALLBACK_EUR_RATE, isFallback := true }

/-- One fetch cycle of `fetchExchangeRate` in src/main.js, as a function
of the pre-state, the current time, and the ordered outcomes of the
endpoints of `API_ENDPOINTS`: endpoints are tried in order; a thrown
error advances to the next endpoint; a parsed body updates `uah` / `eur`
individually when present and positive, and when at least one was usable
the cycle records the update time, clears the fallback indicator, re-arms
the timer and returns; when every endpoint fails the fallback constants
are asserted. -/
def fetchExchangeRate (st : ExState) (now : ℕ) :
    List EndpointResult → ExState
  | [] => applyFallback st
  | .failure :: rest => fetchExchangeRate st now rest
  | .response u e :: rest =>
      if usableRate u || usableRate e then
        armTimer { st with
            uah := updateRate st.uah u
            eur := updateRate st.eur e
            lastUpdate := some now
            isFallback := false }
      else
        fetchExchangeRate
          { st with uah := updateRate st.uah u, eur := updateRate st.eur e }
          now rest

/-- Claim C3: when the first endpoint fails and the second returns a body
with `UAH = 40` and no `EUR` field, the resulting state has the UAH rate
40, the EUR rate unchanged, and the fallback indicator cleared. -/
theorem second_endpoint_success_updates_uah (st : ExState) (now : ℕ) :
    (fetchExchangeRate st now [.failure, .response (some 40) none]).uah = 40 ∧
    (fetchExchangeRate st now [.failure, .response (some 40) none]).eur = st.eur ∧
    (fetchExchangeRate st now [.failure, .response (some 40) none]).isFallback = false := by
  refine ⟨?_, ?_, ?_⟩ <;>
    simp [fetchExchangeRate, usableRate, updateRate, armTimer]

/-- A response in which neither rate is usable leaves the stored rate
untouched. -/
theorem updateRate_of_not_usable (cur : ℚ) (o : Option ℚ)
    (h : usableRate o = false) : updateRate cur o = cur := by
  cases o with
  | none => rfl
  | some r =>
      simp only [usableRate, decide_eq_false_iff_not] at h
      simp [updateRate, if_neg h]

/-- A cycle in which every endpoint outcome fails is exactly the fallback
assignment applied to the pre-state. -/
theorem fetch_allFail (st : ExState) (now : ℕ) (rs : List EndpointResult)
    (h : ∀ r ∈ rs, succeeds r = false) :
    fetchExchangeRate st now rs = applyFallback st := by
  induction rs generalizing st with
  | nil => rfl
  | cons r rest ih =>
      have hrest : ∀ x ∈ rest, succeeds x = false :=
        fun x hx => h x (List.mem_cons_of_mem _ hx)
      cases r with
      | failure => exact ih st hrest
      | response u e =>
          have hs : (usableRate u || usableRate e) = false := by
            have := h _ (List.mem_cons_self _ _)
            simpa [succeeds] using this
          have hu : usableRate u = false := by
            cases hbu : usableRate u <;> simp [hbu] at hs ⊢
          have he : usableRate e = false := by
            cases hbe : usableRate e <;> simp [hbe] at hs ⊢
          rw [fetchExchangeRate, if_neg (by simp [hu, he]),
            updateRate_of_not_usable _ _ hu, updateRate_of_not_usable _ _ he]
          exact ih st hrest

/-- Claim C4: when every endpoint fails (network error, non-ok response,
or a payload with no usable positive rate), the resulting state carries
the fallback constants `FALLBACK_RATE` and `FALLBACK_EUR_RATE` with the
fallback indicator set; previously held rate values are discarded. -/
theorem all_endpoints_failed_resets (st : ExState) (now : ℕ)
    (rs : List EndpointResult) (h : ∀ r ∈ rs, succeeds r = false) :
    (fetchExchangeRate st now rs).uah = FALLBACK_RATE ∧
    (fetchExchangeRate st now rs).eur = FALLBACK_EUR_RATE ∧
    (fetchExchangeRate st now rs).isFallback = true := by
  rw [fetch_allFail st now rs h]
  exact ⟨rfl, rfl, rfl⟩

/-- Witness for C4: both endpoints fail, the second with a payload whose
only rate field is zero (hence unusable). -/
theorem all_endpoints_failed_resets_witness :
    (fetchExchangeRate ⟨50, 2, some 3, false, none, [], 0⟩ 7
        [.failure, .response (some 0) none]).uah = FALLBACK_RATE ∧
    (fetchExchangeRate ⟨50, 2, some 3, false, none, [], 0⟩ 7
        [.failure, .response (some 0) none]).eur = FALLBACK_EUR_RATE ∧
    (fetchExchangeRate ⟨50, 2, some 3, false, none, [], 0⟩ 7
        [.failure, .response (some 0) none]).isFallback = true :=
  all_endpoints_failed_resets _ 7 _ (by decide)

/-- A cycle that succeeds at some endpoint records the update time. -/
theorem fetch_success_lastUpdate (st : ExState) (now : ℕ)
    (rs : List EndpointResult) (h : ∃ r ∈ rs, succeeds r = true) :
    (fetchExchangeRate st now rs).lastUpdate = some now := by
  induction rs generalizing st with
  | nil => simp at h
  | cons r rest ih =>
      cases r with
      | failure =>
          rcases h with ⟨x, hx, hsx⟩
          rcases List.mem_cons.mp hx with rfl | hx'
          · simp [succeeds] at hsx
          · exact ih st ⟨x, hx', hsx⟩
      | response u e =>
          by_cases hs : (usableRate u || usableRate e) = true
          · rw [fetchExchangeRate, if_pos hs]
            rfl
          · rw [fetchExchangeRate, if_neg hs]
            apply ih
            rcases h with ⟨x, hx, hsx⟩
            rcases List.mem_cons.mp hx with rfl | hx'
            · exact absurd (by simpa [succeeds] using hsx) hs
            · exact ⟨x, hx', hsx⟩

/-- Claim C10: a fully failed cycle never clears `lastUpdateTime`; after
a successful cycle at time `t1` followed by a fully failed cycle, the
state simultaneously carries the fallback rates, the fallback indicator,
and the timestamp of the earlier successful fetch. -/
theorem failed_cycle_preserves_timestamp (st : ExState) (t1 t2 : ℕ)
    (rs1 rs2 : List EndpointResult)
    (h1 : ∃ r ∈ rs1, succeeds r = true)
    (h2 : ∀ r ∈ rs2, succeeds r = false) :
    (∀ s : ExState, (fetchExchangeRate s t2 rs2).lastUpdate = s.lastUpdate) ∧
    (fetchExchangeRate (fetchExchangeRate st t1 rs1) t2 rs2).lastUpdate = some t1 ∧
    (fetchExchangeRate (fetchExchangeRate st t1 rs1) t2 rs2).uah = FALLBACK_RATE ∧
    (fetchExchangeRate (fetchExchangeRate st t1 rs1) t2 rs2).eur = FALLBACK_EUR_RATE ∧
    (fetchExchangeRate (fetchExchangeRate st t1 rs1) t2 rs2).isFallback = true := by
  have hframe : ∀ s : ExState, (fetchExchangeRate s t2 rs2).lastUpdate = s.lastUpdate :=
    fun s => by rw [fetch_allFail s t2 rs2 h2]; rfl
  refine ⟨hframe, ?_, ?_, ?_, ?_⟩
  · rw [hframe]
    exact fetch_success_lastUpdate st t1 rs1 h1
  · rw [fetch_allFail _ t2 rs2 h2]; rfl
  · rw [fetch_allFail _ t2 rs2 h2]; rfl
  · rw [fetch_allFail _ t2 rs2 h2]; rfl

/-- Witness for C10: a successful first cycle at time 5 and a fully
failed second cycle at time 9. -/
theorem failed_cycle_preserves_timestamp_witness :
    (∀ s : ExState,
      (fetchExchangeRate s 9 [.failure, .failure]).lastUpdate = s.lastUpdate) ∧
    (fetchExchangeRate
        (fetchExchangeRate ⟨37, 0.85, none, true, none, [], 0⟩ 5
          [.response (some 40) none])
        9 [.failure, .failure]).lastUpdate = some 5 ∧
    (fetchExchangeRate
        (fetchExchangeRate ⟨37, 0.85, none, true, none, [], 0⟩ 5
          [.response (some 40) none])
        9 [.failure, .failure]).uah = FALLBACK_RATE ∧
    (fetchExchangeRate
        (fetchExchangeRate ⟨37, 0.85, none, true, none, [], 0⟩ 5
          [.response (some 40) none])
        9 [.failure, .failure]).eur = FALLBACK_EUR_RATE ∧
    (fetchExchangeRate
        (fetchExchangeRate ⟨37, 0.85, none, true, none, [], 0⟩ 5
          [.response (some 40) none])
        9 [.failure, .failure]).isFallback = true :=
  failed_cycle_preserves_timestamp _ 5 9 _ _ (by decide) (by decide)

/-- The timer consistency invariant: the live interval timers are exactly
the one named by the stored `refreshTimer` handle (armed at
`REFRESH_INTERVAL`), or none when no handle is stored. -/
def timerInv (st : ExState) : Prop :=
  st.liveTimers = (st.refreshTimer.map (fun k => (k, REFRESH_INTERVAL))).toList

/-- Re-arming the timer preserves the timer invariant: the previous timer
is cleared before the new one is armed. -/
theorem timerInv_armTimer (st : ExState) (h : timerInv st) :
    timerInv (armTimer st) := by
  unfold timerInv at h ⊢
  unfold armTimer
  cases hr : st.refreshTimer with
  | none =>
      rw [hr] at h
      simp [hr, h]
  | some k =>
      rw [hr] at h
      simp [hr, h]

/-- Every fetch cycle preserves the timer invariant. -/
theorem fetch_timerInv (st : ExState) (now : ℕ) (rs : List EndpointResult)
    (h : timerInv st) :
    timerInv (fetchExchangeRate st now rs) := by
  induction rs generalizing st with
  | nil => exact h
  | cons r rest ih =>
      cases r with
      | failure => exact ih st h
      | response u e =>
          by_cases hs : (usableRate u || usableRate e) = true
          · rw [fetchExchangeRate, if_pos hs]
            exact timerInv_armTimer _ h
          · rw [fetchExchangeRate, if_neg hs]
            exact ih _ h

/-- A cycle that succeeds at some endpoint stores a timer handle. -/
theorem fetch_success_refreshTimer (st : ExState) (now : ℕ)
    (rs : List EndpointResult) (h : ∃ r ∈ rs, succeeds r = true) :
    ∃ k, (fetchExchangeRate st now rs).refreshTimer = some k := by
  induction rs generalizing st with
  | nil => simp at h
  | cons r rest ih =>
      cases r with
      | failure =>
          rcases h with ⟨x, hx, hsx⟩
          rcases List.mem_cons.mp hx with rfl | hx'
          · simp [succeeds] at hsx
          · exact ih st ⟨x, hx', hsx⟩
      | response u e =>
          by_cases hs : (usableRate u || usableRate e) = true
          · rw [fetchExchangeRate, if_pos hs]
            exact ⟨_, rfl⟩
          · rw [fetchExchangeRate, if_neg hs]
            apply ih
            rcases h with ⟨x, hx, hsx⟩
            rcases List.mem_cons.mp hx with rfl | hx'
            · exact absurd (by simpa [succeeds] using hsx) hs
            · exact ⟨x, hx', hsx⟩

/-- A state satisfying the timer invariant has at most one live timer. -/
theorem timerInv_length_le_one (st : ExState) (h : timerInv st) :
    st.liveTimers.length ≤ 1 := by
  unfold timerInv at h
  rw [h]
  cases st.refreshTimer <;> simp

/-- Claim C8: at most one auto-refresh timer is live at any time.  From a
state satisfying the timer invariant, any fetch cycle preserves it and
leaves at most one live timer; a successful cycle stores a handle whose
timer is armed at the 30-minute `REFRESH_INTERVAL` (the old timer having
been cleared first); a fully failed cycle arms no new timer and leaves
the timer state untouched. -/
theorem refresh_timer_at_most_one (st : ExState) (now : ℕ)
    (rs : List EndpointResult) (hinv : timerInv st) :
    timerInv (fetchExchangeRate st now rs) ∧
    (fetchExchangeRate st now rs).liveTimers.length ≤ 1 ∧
    ((∀ r ∈ rs, succeeds r = false) →
        (fetchExchangeRate st now rs).liveTimers = st.liveTimers ∧
        (fetchExchangeRate st now rs).refreshTimer = st.refreshTimer) ∧
    ((∃ r ∈ rs, succeeds r = true) →
        ∃ k, (fetchExchangeRate st now rs).refreshTimer = some k ∧
          (fetchExchangeRate st now rs).liveTimers = [(k, REFRESH_INTERVAL)]) := by
  have hpost : timerInv (fetchExchangeRate st now rs) := fetch_timerInv st now rs hinv
  refine ⟨hpost, timerInv_length_le_one _ hpost, ?_, ?_⟩
  · intro hall
    rw [fetch_allFail st now rs hall]
    exact ⟨rfl, rfl⟩
  · intro hex
    rcases fetch_success_refreshTimer st now rs hex with ⟨k, hk⟩
    refine ⟨k, hk, ?_⟩
    unfold timerInv at hpost
    rw [hpost, hk]
    rfl

/-- Witness for C8: a pristine state with no stored handle and a cycle
whose single endpoint succeeds. -/
theorem refresh_timer_at_most_one_witness :
    timerInv (fetchExchangeRate ⟨37, 0.85, none, true, none, [], 0⟩ 0
        [.response (some 40) none]) ∧
    (fetchExchangeRate ⟨37, 0.85, none, true, none, [], 0⟩ 0
        [.response (some 40) none]).liveTimers.length ≤ 1 ∧
    ((∀ r ∈ [EndpointResult.response (some 40) none], succeeds r = false) →
        (fetchExchangeRate ⟨37, 0.85, none, true, none, [], 0⟩ 0
            [.response (some 40) none]).liveTimers
          = ExState.liveTimers ⟨37, 0.85, none, true, none, [], 0⟩ ∧
        (fetchExchangeRate ⟨37, 0.85, none, true, none, [], 0⟩ 0
            [.response (some 40) none]).refreshTimer
          = ExState.refreshTimer ⟨37, 0.85, none, true, none, [], 0⟩) ∧
    ((∃ r ∈ [EndpointResult.response (some 40) none], succeeds r = true) →
        ∃ k, (fetchExchangeRate ⟨37, 0.85, none, true, none, [], 0⟩ 0
            [.response (some 40) none]).refreshTimer = some k ∧
          (fetchExchangeRate ⟨37, 0.85, none, true, none, [], 0⟩ 0
            [.response (some 40) none]).liveTimers = [(k, REFRESH_INTERVAL)]) :=
  refresh_timer_at_most_one ⟨37, 0.85, none, true, none, [], 0⟩ 0
    [.response (some 40) none] rfl

/-- Method `Number.prototype.toFixed(2)` on an idealized (exact) non-negative
number: the nearest multiple of `1/100`, ties rounded up, printed with
exactly two fractional digits. -/
def toFixed2 (q : ℚ) : String :=
  let n := ⌊q * 100 + 1 / 2⌋
  toString (n / 100) ++ "." ++ (if n % 100 < 10 then "0" else "") ++ toString (n % 100)

/-- Function `formatCurrency` of src/main.js: `"₴" + (value * CURRENCY_RATE).toFixed(2)`
for UAH, `"€" + (value / EUR_RATE).toFixed(2)` for EUR, and
`"$" + value.toFixed(2)` otherwise.  The function reads the current
currency and rate state and mutates nothing, so it is modelled as a pure
function of that state. -/
def formatCurrency (currentCurrency : String) (CURRENCY_RATE EUR_RATE : ℚ)
    (value : ℚ) : String :=
  if currentCurrency = "UAH" then "₴" ++ toFixed2 (value * CURRENCY_RATE)
  else if currentCurrency = "EUR" then "€" ++ toFixed2 (value / EUR_RATE)
  else "$" ++ toFixed2 value

/-- Claim C6: for a non-negative amount, USD formatting is the identity
conversion rounded to two decimals (`format(100, "USD") == "$100.00"`),
UAH formatting multiplies by the current USD to UAH rate, and EUR
formatting divides by the current USD to EUR rate, each prefixed with the
currency symbol; the formatter mutates no state (it is a pure function of
the rate state). -/
theorem formatCurrency_conversions (uahRate eurRate value : ℚ)
    (hv : 0 ≤ value) :
    formatCurrency "USD" uahRate eurRate value = "$" ++ toFixed2 value ∧
    formatCurrency "UAH" uahRate eurRate value = "₴" ++ toFixed2 (value * uahRate) ∧
    formatCurrency "EUR" uahRate eurRate value = "€" ++ toFixed2 (value / eurRate) ∧
    formatCurrency "USD" uahRate eurRate 100 = "$100.00" := by
  refine ⟨?_, ?_, ?_, ?_⟩
  · rw [formatCurrency, if_neg (by decide), if_neg (by decide)]
  · rw [formatCurrency, if_pos rfl]
  · rw [formatCurrency, if_neg (by decide), if_pos rfl]
  · rw [formatCurrency, if_neg (by decide), if_neg (by decide)]
    have hfl : ⌊(100 : ℚ) * 100 + 1 / 2⌋ = (10000 : ℤ) := by norm_num
    simp only [toFixed2]
    rw [hfl]
    decide

/-- Witness for C6 at amount 100 with the fallback rates. -/
theorem formatCurrency_conversions_witness :
    formatCurrency "USD" 37 0.85 100 = "$" ++ toFixed2 100 ∧
    formatCurrency "UAH" 37 0.85 100 = "₴" ++ toFixed2 (100 * 37) ∧
    formatCurrency "EUR" 37 0.85 100 = "€" ++ toFixed2 (100 / 0.85) ∧
    formatCurrency "USD" 37 0.85 100 = "$100.00" :=
  formatCurrency_conversions 37 0.85 100 (by decide)

/-- The chart sampling loop of `initChart` and `updateChartData` in
src/main.js: `for (let i = 0; i <= maxDuration; i += stepSize)` pushing
`(i, calculatePrice(i).total)`, expressed as a map over the loop index. -/
noncomputable def samplePriceCurve (cfg : PricingConfig)
    (maxDuration stepSize : ℕ) : List (ℕ × ℝ) :=
  (List.range (maxDuration / stepSize + 1)).map
    (fun k => (k * stepSize, (calculatePrice cfg ((k * stepSize : ℕ) : ℝ)).total))

/-- Claim C7: the chart sampling at `maxDuration = 5000`, `stepSize = 50`
produces a strictly increasing duration sequence starting at 0 and ending
at 5000 inclusive, every duration a multiple of 50, each paired with the
quote total at that duration; and the sampling is a pure projection, so
two calls with identical arguments yield identical sequences. -/
theorem samplePriceCurve_chart_properties (cfg : PricingConfig) :
    ((samplePriceCurve cfg 5000 50).map Prod.fst
        = (List.range 101).map (fun k => k * 50)) ∧
    List.Chain' (fun a b => a < b) ((samplePriceCurve cfg 5000 50).map Prod.fst) ∧
    ((samplePriceCurve cfg 5000 50).map Prod.fst).head? = some 0 ∧
    ((samplePriceCurve cfg 5000 50).map Prod.fst).getLast? = some 5000 ∧
    (∀ d ∈ (samplePriceCurve cfg 5000 50).map Prod.fst, 50 ∣ d) ∧
    (∀ p ∈ samplePriceCurve cfg 5000 50,
        p.2 = (calculatePrice cfg ((p.1 : ℕ) : ℝ)).total) ∧
    samplePriceCurve cfg 5000 50 = samplePriceCurve cfg 5000 50 := by
  have hfst : (samplePriceCurve cfg 5000 50).map Prod.fst
      = (List.range 101).map (fun k => k * 50) := by
    unfold samplePriceCurve
    rw [List.map_map]
    rfl
  refine ⟨hfst, ?_, ?_, ?_, ?_, ?_, rfl⟩
  · rw [hfst, List.chain'_map, show (101 : ℕ) = Nat.succ 100 from rfl,
      List.chain'_range_succ]
    intro m _
    omega
  · rw [hfst]; decide
  · rw [hfst]; decide
  · rw [hfst]
    intro d hd
    rw [List.mem_map] at hd
    rcases hd with ⟨k, _, rfl⟩
    exact dvd_mul_left 50 k
  · intro p hp
    unfold samplePriceCurve at hp
    rw [List.mem_map] at hp
    rcases hp with ⟨k, _, rfl⟩
    rfl

end AudioPricing
